import Mathlib

/-!
Verification development for the cosmos-sdk extract: Tendermint light-client
misbehaviour detection (`x/ibc/07-tendermint/misbehaviour.go`, shipped here
inside `src/x/ibc/06-solomachine/types/solomachine_test.go`), the multistore
Merkle root builders (`x/ibc/03-connection/handler.go`, second part:
`merkleMap`/`simpleMap`), the solo-machine `SignatureProof` commitment proof
(`src/unnamed/part_000`), and the connection handshake message handlers
(`x/ibc/03-connection/handler.go`, first part).

Machine integers (`uint64` heights) are modelled as `Nat`; time instants and
durations (`time.Time`, `time.Duration`) as `Int` so that `time.Time.Sub`
subtraction is total. Byte strings are `List Nat`.
-/

abbrev Bytes := List Nat

/-! ## Tendermint light-client misbehaviour check

External tendermint-library operations (proto decoding of validator sets and
signed headers, `ValidatorSet.VerifyCommitTrusting`) are not part of this
repository; they enter as an abstract environment `VerifyEnv` of oracles, so
the theorems quantify over every possible behaviour of the library. -/

/-- `Fraction` (the client's trust level); only carried through to the
`VerifyCommitTrusting` call. -/
structure TrustLevel where
  numerator : Nat
  denominator : Nat
deriving DecidableEq, Repr

/-- The fields of the Tendermint `ClientState` read by the misbehaviour
check: `FrozenHeight`, `UnbondingPeriod`, `TrustLevel`. -/
structure TmClientState where
  frozenHeight : Nat
  unbondingPeriod : Int
  trustLevel : TrustLevel
deriving DecidableEq, Repr

/-- Modelled from the spec: `ClientState.IsFrozen` is not under `src/` (only
its call site is); the spec's data model says "optional frozen height
(0/absent = not frozen)", so a client is frozen exactly when
`FrozenHeight ≠ 0`. -/
def TmClientState.IsFrozen (cs : TmClientState) : Bool :=
  cs.frozenHeight != 0

/-- The fields of the Tendermint `ConsensusState` read by the misbehaviour
check: `Timestamp` and the proto-encoded `ValidatorSet` (kept in wire form,
an opaque `Nat`, and decoded through the environment's oracle exactly as the
code calls `tmtypes.ValidatorSetFromProto`). -/
structure TmConsensusState where
  timestamp : Int
  validatorSet : Nat
deriving DecidableEq, Repr

/-- A Tendermint header as carried inside evidence: only its embedded
proto `SignedHeader` (wire form) is read. -/
structure TmHeader where
  signedHeader : Nat
deriving DecidableEq, Repr

/-- Tendermint misbehaviour evidence: chain id, the two conflicting headers,
and the claimed height. Modelled from the spec for `GetHeight` only: the
evidence's `GetHeight` accessor is not under `src/`; the spec's data model
says evidence carries a "claimed height/sequence", modelled as the field
`height`. -/
structure TmEvidence where
  chainID : String
  header1 : TmHeader
  header2 : TmHeader
  height : Nat
deriving DecidableEq, Repr

/-- A decoded `tmtypes.ValidatorSet`; opaque to this module, produced and
consumed only by the environment's oracles. -/
structure ValidatorSet where
  raw : Nat
deriving DecidableEq, Repr

/-- A decoded `tmtypes.SignedHeader`; the misbehaviour check reads its
`Commit.BlockID`, `Height` and `Commit` fields (each opaque here) to pass
them to `VerifyCommitTrusting`. -/
structure SignedHeader where
  height : Nat
  commitBlockID : Nat
  commit : Nat
deriving DecidableEq, Repr

/-- Oracles for the external tendermint library calls made by
`checkMisbehaviour`: proto decoding (fallible, hence `Option`) and the
trust-level commit verification
`valset.VerifyCommitTrusting(chainID, blockID, height, commit, trustLevel)`. -/
structure VerifyEnv where
  validatorSetFromProto : Nat → Option ValidatorSet
  signedHeaderFromProto : Nat → Option SignedHeader
  verifyCommitTrusting : ValidatorSet → String → Nat → Nat → Nat → TrustLevel → Bool

/-- Error cause produced inside `checkMisbehaviour`; the caller wraps every
one of these in `ErrInvalidEvidence`. `invalidHeight` is
`sdkerrors.ErrInvalidHeight`, `unbondingPeriodExpired` is
`types.ErrUnbondingPeriodExpired`, the remaining constructors are the
`clienttypes.ErrInvalidEvidence` wraps of the decode/verify failures. -/
inductive CheckErr
  | invalidHeight
  | unbondingPeriodExpired
  | invalidValidatorSet
  | invalidHeader1
  | invalidHeader2
  | commitVerificationFailed1
  | commitVerificationFailed2
deriving DecidableEq, Repr

/-- Message payload of a `clienttypes.ErrInvalidEvidence` returned by
`CheckMisbehaviourAndUpdateState`: either the already-frozen rejection or
the wrap of a `checkMisbehaviour` failure. -/
inductive EvidenceMsg
  | alreadyFrozen (frozenHeight evidenceHeight : Nat)
  | wrapped (inner : CheckErr)
deriving DecidableEq, Repr

/-- Registered error kind returned by `CheckMisbehaviourAndUpdateState`:
`clienttypes.ErrInvalidClientType` (with its wrap message) or
`clienttypes.ErrInvalidEvidence` (with its payload). -/
inductive ClientErr
  | invalidClientType (msg : String)
  | invalidEvidence (msg : EvidenceMsg)
deriving DecidableEq, Repr

/-- The `clientexported.ClientState` interface argument: either the
Tendermint concrete type or some other dynamic type. -/
inductive AnyClientState
  | tendermint (cs : TmClientState)
  | other
deriving DecidableEq, Repr

/-- The `clientexported.ConsensusState` interface argument. -/
inductive AnyConsensusState
  | tendermint (cs : TmConsensusState)
  | other
deriving DecidableEq, Repr

/-- The `clientexported.Misbehaviour` interface argument. `GetHeight()` is
part of the interface and is called before the cast, so the non-Tendermint
variant still carries a height. -/
inductive AnyMisbehaviour
  | tendermint (ev : TmEvidence)
  | other (height : Nat)
deriving DecidableEq, Repr

/-- `Misbehaviour.GetHeight()`, dispatched on the dynamic type. -/
def AnyMisbehaviour.GetHeight : AnyMisbehaviour → Nat
  | .tendermint ev => ev.height
  | .other h => h

/-- `checkMisbehaviour` from the source, in its exact check order:
height-vs-evidence-height, unbonding-period staleness, validator-set
decode, the two signed-header decodes, then the two
`VerifyCommitTrusting` calls. -/
def checkMisbehaviour (env : VerifyEnv) (clientState : TmClientState)
    (consensusState : TmConsensusState) (evidence : TmEvidence)
    (height : Nat) (currentTimestamp : Int) : Except CheckErr Unit :=
  if height > evidence.height then
    .error .invalidHeight
  else if currentTimestamp - consensusState.timestamp ≥ clientState.unbondingPeriod then
    .error .unbondingPeriodExpired
  else
    match env.validatorSetFromProto consensusState.validatorSet with
    | none => .error .invalidValidatorSet
    | some valset =>
      match env.signedHeaderFromProto evidence.header1.signedHeader with
      | none => .error .invalidHeader1
      | some signedHeader1 =>
        match env.signedHeaderFromProto evidence.header2.signedHeader with
        | none => .error .invalidHeader2
        | some signedHeader2 =>
          if !(env.verifyCommitTrusting valset evidence.chainID
              signedHeader1.commitBlockID signedHeader1.height signedHeader1.commit
              clientState.trustLevel) then
            .error .commitVerificationFailed1
          else if !(env.verifyCommitTrusting valset evidence.chainID
              signedHeader2.commitBlockID signedHeader2.height signedHeader2.commit
              clientState.trustLevel) then
            .error .commitVerificationFailed2
          else
            .ok ()

/-- `CheckMisbehaviourAndUpdateState` from the source, preserving the order
of the dynamic-type casts: the client-state cast comes first, then the
already-frozen guard, then the consensus-state and evidence casts, then
`checkMisbehaviour`; on success `FrozenHeight` is set to the evidence
height. -/
def CheckMisbehaviourAndUpdateState (env : VerifyEnv)
    (clientState : AnyClientState) (consensusState : AnyConsensusState)
    (misbehaviour : AnyMisbehaviour) (height : Nat) (currentTimestamp : Int) :
    Except ClientErr TmClientState :=
  match clientState with
  | .other => .error (.invalidClientType "client state type is not Tendermint")
  | .tendermint tmClientState =>
    if tmClientState.IsFrozen ∧ tmClientState.frozenHeight ≤ misbehaviour.GetHeight then
      .error (.invalidEvidence
        (.alreadyFrozen tmClientState.frozenHeight misbehaviour.GetHeight))
    else
      match consensusState with
      | .other => .error (.invalidClientType "consensus state is not Tendermint")
      | .tendermint tmConsensusState =>
        match misbehaviour with
        | .other _ => .error (.invalidClientType "evidence type is not Tendermint")
        | .tendermint tmEvidence =>
          match checkMisbehaviour env tmClientState tmConsensusState tmEvidence
              height currentTimestamp with
          | .error e => .error (.invalidEvidence (.wrapped e))
          | .ok _ =>
            .ok { tmClientState with frozenHeight := tmEvidence.height }

/-! ## Multistore Merkle root builders (`rootmulti`: `merkleMap` and `simpleMap`)

External pieces: `tmhash.Sum` (SHA-256) and
`merkle.SimpleHashFromByteSlices` (the tendermint binary Merkle combine)
come from the tendermint library, not this repository; they enter as the
abstract environment `HashEnv`. `kv.Pairs.Sort` (tendermint `libs/kv`) is
also external; it is modelled from the spec: "sort pairs lexicographically
by raw key bytes", with the documented instability "and by value too if
duplicate key" — i.e. the comparator orders by key bytes and breaks ties by
value bytes. -/

/-- `bytes.Compare` on byte strings: lexicographic, a strict prefix ordering
before its extensions. -/
def cmpBytes : Bytes → Bytes → Ordering
  | [], [] => .eq
  | [], _ :: _ => .lt
  | _ :: _, [] => .gt
  | a :: as, b :: bs =>
    if a < b then .lt else if b < a then .gt else cmpBytes as bs

/-- Strict lexicographic order on byte strings (`bytes.Compare < 0`). -/
def bytesLt (a b : Bytes) : Prop := cmpBytes a b = .lt

/-- Reflexive lexicographic order on byte strings (`bytes.Compare ≤ 0`). -/
def bytesLe (a b : Bytes) : Prop := cmpBytes a b ≠ .gt

instance (a b : Bytes) : Decidable (bytesLt a b) := by
  unfold bytesLt; infer_instance

instance (a b : Bytes) : Decidable (bytesLe a b) := by
  unfold bytesLe; infer_instance

/-- `kv.Pair`: a key and a value, both byte strings. In the builders the
stored value is always the hash of the inserted value. -/
structure KvPair where
  key : Bytes
  value : Bytes
deriving DecidableEq, Repr

/-- Modelled from the spec: the comparator of the external
`kv.Pairs.Sort` — lexicographic by raw key bytes, ties broken by value
bytes ("sorted by key (UNSTABLE: and by value too if duplicate key)"). -/
def kvPairLe (p q : KvPair) : Prop :=
  bytesLt p.key q.key ∨ (p.key = q.key ∧ bytesLe p.value q.value)

instance (p q : KvPair) : Decidable (kvPairLe p q) := by
  unfold kvPairLe; infer_instance

/-- Modelled from the spec: `kv.Pairs.Sort` sorts the pair list by
`kvPairLe` (a total order, so any correct sort yields this list). -/
def sortPairs (l : List KvPair) : List KvPair :=
  l.insertionSort kvPairLe

/-- `binary.PutUvarint`: little-endian base-128 varint of a natural.
In Go, while `x ≥ 0x80` the emitted byte is `byte(x) | 0x80`, which equals
`x % 128 + 128`, and `x >>= 7` is `x / 128`. -/
def putUvarint (x : Nat) : Bytes :=
  if x < 128 then [x] else (x % 128 + 128) :: putUvarint (x / 128)
decreasing_by exact Nat.div_lt_self (by omega) (by omega)

/-- `encodeByteSlice(w, bz)`: append the varint length prefix and then the
bytes to the buffer `w`. -/
def encodeByteSlice (w : Bytes) (bz : Bytes) : Bytes :=
  w ++ putUvarint bz.length ++ bz

/-- `kvPair.bytes()`: the key and the (hashed) value, each length-prefixed,
concatenated into one leaf byte string. -/
def kvPairBytes (p : KvPair) : Bytes :=
  encodeByteSlice (encodeByteSlice [] p.key) p.value

/-- The external hash functions used by the builders: `tmhash.Sum`
(SHA-256 of a byte string) and `merkle.SimpleHashFromByteSlices` (the
bottom-up binary Merkle hash of an ordered leaf list), both from the
tendermint library and abstract here. -/
structure HashEnv where
  tmhashSum : Bytes → Bytes
  simpleHashFromByteSlices : List Bytes → Bytes

/-- `hashKVPairs`: encode every pair as a leaf and Merkle-hash the ordered
leaf list. -/
def hashKVPairs (env : HashEnv) (kvs : List KvPair) : Bytes :=
  env.simpleHashFromByteSlices (kvs.map kvPairBytes)

/-- `merkleMap`: ordered pair list plus the sorted (clean/dirty) flag. -/
structure merkleMap where
  kvs : List KvPair
  sorted : Bool
deriving DecidableEq, Repr

/-- `newMerkleMap()`. -/
def newMerkleMap : merkleMap :=
  { kvs := [], sorted := false }

/-- `merkleMap.set(key, value)`: hash the value, append the pair, mark the
map unsorted. -/
def merkleMap.set (env : HashEnv) (sm : merkleMap) (key value : Bytes) : merkleMap :=
  { kvs := sm.kvs ++ [{ key := key, value := env.tmhashSum value }], sorted := false }

/-- `merkleMap.sort()`: sort the pairs unless already sorted, then mark
sorted. -/
def merkleMap.sort (sm : merkleMap) : merkleMap :=
  if sm.sorted then sm else { kvs := sortPairs sm.kvs, sorted := true }

/-- `merkleMap.hash()`: sort (memoized by the flag), then Merkle-hash the
encoded pairs. -/
def merkleMap.hash (env : HashEnv) (sm : merkleMap) : Bytes :=
  hashKVPairs env sm.sort.kvs

/-- `simpleMap`: same state as `merkleMap` (the second builder in the same
file). -/
structure simpleMap where
  kvs : List KvPair
  sorted : Bool
deriving DecidableEq, Repr

/-- `newSimpleMap()`. -/
def newSimpleMap : simpleMap :=
  { kvs := [], sorted := false }

/-- `simpleMap.Set(key, value)`: hash the value, append the pair, mark the
map unsorted. -/
def simpleMap.Set (env : HashEnv) (sm : simpleMap) (key value : Bytes) : simpleMap :=
  { kvs := sm.kvs ++ [{ key := key, value := env.tmhashSum value }], sorted := false }

/-- `simpleMap.Sort()`. -/
def simpleMap.Sort (sm : simpleMap) : simpleMap :=
  if sm.sorted then sm else { kvs := sortPairs sm.kvs, sorted := true }

/-- `simpleMap.Hash()`. -/
def simpleMap.Hash (env : HashEnv) (sm : simpleMap) : Bytes :=
  hashKVPairs env sm.Sort.kvs

/-- `simpleMap.KVPairs()`: a copy of the sorted pairs. -/
def simpleMap.KVPairs (sm : simpleMap) : List KvPair :=
  sm.Sort.kvs

/-- Run a sequence of `Set` insertions on a fresh `simpleMap`. -/
def buildSimpleMap (env : HashEnv) (ops : List (Bytes × Bytes)) : simpleMap :=
  ops.foldl (fun m kv => m.Set env kv.1 kv.2) newSimpleMap

/-- Run a sequence of `set` insertions on a fresh `merkleMap`. -/
def buildMerkleMap (env : HashEnv) (ops : List (Bytes × Bytes)) : merkleMap :=
  ops.foldl (fun m kv => m.set env kv.1 kv.2) newMerkleMap

/-- The pair a `Set key value` call stores: the key with the hash of the
value (hashing happens at insertion time). -/
def setPair (env : HashEnv) (kv : Bytes × Bytes) : KvPair :=
  { key := kv.1, value := env.tmhashSum kv.2 }

/-- The spec's leaf byte string:
`varint(len(key)) || key || varint(len(hashedValue)) || hashedValue`. -/
def specLeaf (key hashedValue : Bytes) : Bytes :=
  putUvarint key.length ++ key ++ putUvarint hashedValue.length ++ hashedValue

/-! ## Solo-machine `SignatureProof` commitment proof (`src/unnamed/part_000`) -/

/-- `exported.Type`: the commitment kind tags. -/
inductive CommitmentType
  | signature
  | merkle
deriving DecidableEq, Repr

/-- `exported.Root` (opaque here: `SignatureProof` ignores it). -/
structure CommitmentRoot where
  raw : Nat
deriving DecidableEq, Repr

/-- `exported.Path` (opaque here: `SignatureProof` ignores it). -/
structure CommitmentPath where
  raw : Nat
deriving DecidableEq, Repr

/-- `ErrInvalidProof`, the error kind returned by `ValidateBasic`. -/
inductive ProofError
  | invalidProof
deriving DecidableEq, Repr

/-- `SignatureProof`: wraps one signature byte string. -/
structure SignatureProof where
  signature : Bytes
deriving DecidableEq, Repr

/-- `GetCommitmentType` of a `SignatureProof` is the signature kind. -/
def SignatureProof.GetCommitmentType (_ : SignatureProof) : CommitmentType :=
  .signature

/-- `VerifyMembership`: returns nil unconditionally. -/
def SignatureProof.VerifyMembership (_ : SignatureProof) (_ : CommitmentRoot)
    (_ : CommitmentPath) (_ : Bytes) : Except ProofError Unit :=
  .ok ()

/-- `VerifyNonMembership`: returns nil unconditionally. -/
def SignatureProof.VerifyNonMembership (_ : SignatureProof) (_ : CommitmentRoot)
    (_ : CommitmentPath) : Except ProofError Unit :=
  .ok ()

/-- `IsEmpty`: true when the signature byte string is empty. -/
def SignatureProof.IsEmpty (proof : SignatureProof) : Bool :=
  proof.signature.length == 0

/-- `ValidateBasic`: `ErrInvalidProof` when the proof is empty, nil
otherwise. -/
def SignatureProof.ValidateBasic (proof : SignatureProof) : Except ProofError Unit :=
  if proof.IsEmpty then .error .invalidProof else .ok ()

/-! ## Connection handshake message handlers (`03-connection/handler.go`)

The keeper (`ConnOpenInit` …) and the event machinery are external
collaborators; the keeper enters as a record of oracles (`Keeper`), its
error payload opaque (`Nat`). The event-type and attribute-key string
constants live in the `types` package, outside `src/`; their literal values
follow the upstream conventions, and the theorems depend only on which
identifiers each event carries (and on the constants being pairwise
distinct). -/

/-- `commitmentexported.Proof`: a concrete proof value of one of the known
kinds. -/
inductive Proof
  | signature (p : SignatureProof)
  | merkle (payload : Bytes)
deriving DecidableEq, Repr

/-- The dynamic value held by a protobuf `Any` envelope's cache
(`GetCachedValue()`): either a concrete `Proof`, or anything else
(including an unpopulated/nil cache). -/
inductive CachedValue
  | proofValue (p : Proof)
  | otherValue
deriving DecidableEq, Repr

/-- A protobuf `Any` envelope as the handlers see it: only its cached
dynamic value is read. -/
structure AnyEnvelope where
  cached : CachedValue
deriving DecidableEq, Repr

/-- Outcome of a Go type assertion `x.(T)` without the `, ok` form: the
value on success, a runtime panic otherwise. -/
inductive Asserted (α : Type)
  | value (a : α)
  | panicked
deriving DecidableEq, Repr

/-- The handlers' `msg.Proof….GetCachedValue().(commitmentexported.Proof)`
step: an unchecked cast of the cached value. -/
def assertToProof : CachedValue → Asserted Proof
  | .proofValue p => .value p
  | .otherValue => .panicked

/-- An emitted `sdk.Event`: a type tag and attribute key/value pairs. -/
structure Event where
  eventType : String
  attributes : List (String × String)
deriving DecidableEq, Repr

def EventTypeConnectionOpenInit : String := "connection_open_init"

def EventTypeConnectionOpenTry : String := "connection_open_try"

def EventTypeConnectionOpenAck : String := "connection_open_ack"

def EventTypeConnectionOpenConfirm : String := "connection_open_confirm"

/-- `sdk.EventTypeMessage`, the generic "message processed" marker. -/
def EventTypeMessage : String := "message"

def AttributeKeyConnectionID : String := "connection_id"

def AttributeKeyClientID : String := "client_id"

def AttributeKeyCounterpartyClientID : String := "counterparty_client_id"

def AttributeKeyModule : String := "module"

def AttributeValueCategory : String := "ibc_connection"

/-- The counterparty record carried by handshake messages (the handlers
read only its client identifier). -/
structure Counterparty where
  clientID : String
  connectionID : String
deriving DecidableEq, Repr

/-- `MsgConnectionOpenInit`. -/
structure MsgConnectionOpenInit where
  connectionID : String
  clientID : String
  counterparty : Counterparty
deriving DecidableEq, Repr

/-- `MsgConnectionOpenTry`. -/
structure MsgConnectionOpenTry where
  connectionID : String
  counterparty : Counterparty
  clientID : String
  counterpartyVersions : List String
  proofInit : AnyEnvelope
  proofConsensus : AnyEnvelope
  proofHeight : Nat
  consensusHeight : Nat
deriving DecidableEq, Repr

/-- `MsgConnectionOpenAck`. -/
structure MsgConnectionOpenAck where
  connectionID : String
  version : String
  proofTry : AnyEnvelope
  proofConsensus : AnyEnvelope
  proofHeight : Nat
  consensusHeight : Nat
deriving DecidableEq, Repr

/-- `MsgConnectionOpenConfirm`. -/
structure MsgConnectionOpenConfirm where
  connectionID : String
  proofAck : AnyEnvelope
  proofHeight : Nat
deriving DecidableEq, Repr

/-- The keeper's handshake operations, external to the handler file; error
payloads are opaque. -/
structure Keeper where
  ConnOpenInit : String → String → Counterparty → Except Nat Unit
  ConnOpenTry : String → Counterparty → String → List String → Proof → Proof →
    Nat → Nat → Except Nat Unit
  ConnOpenAck : String → String → Proof → Proof → Nat → Nat → Except Nat Unit
  ConnOpenConfirm : String → Proof → Nat → Except Nat Unit

/-- Result of one handler call: the emitted events on success (the event
manager is fresh per call, so the result's events are exactly the emitted
ones), the keeper error on failure, or a runtime panic from a failed type
assertion. The keeper error path returns before `EmitEvents`, so a failure
emits nothing. -/
inductive HandlerOutcome
  | success (events : List Event)
  | failure (e : Nat)
  | panicked
deriving DecidableEq, Repr

/-- `HandleMsgConnectionOpenInit`. -/
def HandleMsgConnectionOpenInit (k : Keeper) (msg : MsgConnectionOpenInit) :
    HandlerOutcome :=
  match k.ConnOpenInit msg.connectionID msg.clientID msg.counterparty with
  | .error e => .failure e
  | .ok _ => .success [
      { eventType := EventTypeConnectionOpenInit,
        attributes := [(AttributeKeyConnectionID, msg.connectionID),
          (AttributeKeyClientID, msg.clientID),
          (AttributeKeyCounterpartyClientID, msg.counterparty.clientID)] },
      { eventType := EventTypeMessage,
        attributes := [(AttributeKeyModule, AttributeValueCategory)] }]

/-- `HandleMsgConnectionOpenTry`: both proof envelopes are cast before the
keeper call. -/
def HandleMsgConnectionOpenTry (k : Keeper) (msg : MsgConnectionOpenTry) :
    HandlerOutcome :=
  match assertToProof msg.proofInit.cached with
  | .panicked => .panicked
  | .value proofInit =>
    match assertToProof msg.proofConsensus.cached with
    | .panicked => .panicked
    | .value proofConsensus =>
      match k.ConnOpenTry msg.connectionID msg.counterparty msg.clientID
          msg.counterpartyVersions proofInit proofConsensus
          msg.proofHeight msg.consensusHeight with
      | .error e => .failure e
      | .ok _ => .success [
          { eventType := EventTypeConnectionOpenTry,
            attributes := [(AttributeKeyConnectionID, msg.connectionID),
              (AttributeKeyClientID, msg.clientID),
              (AttributeKeyCounterpartyClientID, msg.counterparty.clientID)] },
          { eventType := EventTypeMessage,
            attributes := [(AttributeKeyModule, AttributeValueCategory)] }]

/-- `HandleMsgConnectionOpenAck`: both proof envelopes are cast before the
keeper call; the success event carries only the connection identifier. -/
def HandleMsgConnectionOpenAck (k : Keeper) (msg : MsgConnectionOpenAck) :
    HandlerOutcome :=
  match assertToProof msg.proofTry.cached with
  | .panicked => .panicked
  | .value proofTry =>
    match assertToProof msg.proofConsensus.cached with
    | .panicked => .panicked
    | .value proofConsensus =>
      match k.ConnOpenAck msg.connectionID msg.version proofTry proofConsensus
          msg.proofHeight msg.consensusHeight with
      | .error e => .failure e
      | .ok _ => .success [
          { eventType := EventTypeConnectionOpenAck,
            attributes := [(AttributeKeyConnectionID, msg.connectionID)] },
          { eventType := EventTypeMessage,
            attributes := [(AttributeKeyModule, AttributeValueCategory)] }]

/-- `HandleMsgConnectionOpenConfirm`: the proof envelope is cast before the
keeper call; the success event carries only the connection identifier. -/
def HandleMsgConnectionOpenConfirm (k : Keeper) (msg : MsgConnectionOpenConfirm) :
    HandlerOutcome :=
  match assertToProof msg.proofAck.cached with
  | .panicked => .panicked
  | .value proofAck =>
    match k.ConnOpenConfirm msg.connectionID proofAck msg.proofHeight with
    | .error e => .failure e
    | .ok _ => .success [
        { eventType := EventTypeConnectionOpenConfirm,
          attributes := [(AttributeKeyConnectionID, msg.connectionID)] },
        { eventType := EventTypeMessage,
          attributes := [(AttributeKeyModule, AttributeValueCategory)] }]

/-- C1: if the dynamic types are the Tendermint ones, the client is not
already frozen at a height at or below the evidence height, the reference
height is at or before the evidence height, the unbonding period has not
expired, the validator set and both signed headers decode, and both
conflicting commits independently pass the trust-level verification against
the trusted validator set, then `CheckMisbehaviourAndUpdateState` succeeds
and the returned client state is the input client state with `FrozenHeight`
set to the evidence height. -/
theorem c1_misbehaviour_success_freezes_at_evidence_height
    (env : VerifyEnv) (cs : TmClientState) (cons : TmConsensusState)
    (ev : TmEvidence) (height : Nat) (now : Int)
    (vs : ValidatorSet) (sh1 sh2 : SignedHeader)
    (hfrozen : ¬ (cs.IsFrozen = true ∧ cs.frozenHeight ≤ ev.height))
    (hheight : height ≤ ev.height)
    (hperiod : now - cons.timestamp < cs.unbondingPeriod)
    (hvs : env.validatorSetFromProto cons.validatorSet = some vs)
    (hsh1 : env.signedHeaderFromProto ev.header1.signedHeader = some sh1)
    (hsh2 : env.signedHeaderFromProto ev.header2.signedHeader = some sh2)
    (hv1 : env.verifyCommitTrusting vs ev.chainID sh1.commitBlockID sh1.height
      sh1.commit cs.trustLevel = true)
    (hv2 : env.verifyCommitTrusting vs ev.chainID sh2.commitBlockID sh2.height
      sh2.commit cs.trustLevel = true) :
    CheckMisbehaviourAndUpdateState env (.tendermint cs) (.tendermint cons)
      (.tendermint ev) height now
      = .ok { cs with frozenHeight := ev.height } := by
  have hfr : ¬ (cs.IsFrozen = true ∧
      cs.frozenHeight ≤ (AnyMisbehaviour.tendermint ev).GetHeight) := by
    simpa [AnyMisbehaviour.GetHeight] using hfrozen
  simp only [CheckMisbehaviourAndUpdateState, if_neg hfr]
  simp only [checkMisbehaviour, if_neg (not_lt.mpr hheight),
    if_neg (not_le.mpr hperiod), hvs, hsh1, hsh2]
  simp [hv1, hv2]

/-- Witness for C1 at a concrete input. -/
theorem c1_misbehaviour_success_freezes_at_evidence_height_witness :
    (3 ≤ 5) ∧
    CheckMisbehaviourAndUpdateState
      ⟨fun _ => some ⟨7⟩, fun n => some ⟨n, 1, 2⟩, fun _ _ _ _ _ _ => true⟩
      (.tendermint ⟨0, 100, ⟨1, 3⟩⟩)
      (.tendermint ⟨4, 9⟩)
      (.tendermint ⟨"testchain", ⟨11⟩, ⟨12⟩, 5⟩)
      3 10
    = .ok ⟨5, 100, ⟨1, 3⟩⟩ :=
  ⟨by decide,
    c1_misbehaviour_success_freezes_at_evidence_height _ _ _ _ _ _
      ⟨7⟩ ⟨11, 1, 2⟩ ⟨12, 1, 2⟩
      (by decide) (by decide) (by decide) rfl rfl rfl rfl rfl⟩

/-- C2: (a) a call on a Tendermint client already frozen with
`FrozenHeight ≤` the evidence height is rejected with the already-frozen
`ErrInvalidEvidence` error, returning no updated state; (b) evidence at a
height strictly below the current `FrozenHeight` is never rejected by the
already-frozen check; (c) consequently any successful call on a frozen
client strictly lowers `FrozenHeight` — it is never raised. -/
theorem c2_frozen_client_refreeze_guard
    (env : VerifyEnv) (cs : TmClientState) (cons : AnyConsensusState)
    (mis : AnyMisbehaviour) (height : Nat) (now : Int) :
    (cs.IsFrozen = true → cs.frozenHeight ≤ mis.GetHeight →
      CheckMisbehaviourAndUpdateState env (.tendermint cs) cons mis height now
        = .error (.invalidEvidence (.alreadyFrozen cs.frozenHeight mis.GetHeight)))
    ∧ (cs.IsFrozen = true → mis.GetHeight < cs.frozenHeight →
      ∀ a b, CheckMisbehaviourAndUpdateState env (.tendermint cs) cons mis height now
        ≠ .error (.invalidEvidence (.alreadyFrozen a b)))
    ∧ (∀ cs', CheckMisbehaviourAndUpdateState env (.tendermint cs) cons mis height now
        = .ok cs' → cs.IsFrozen = true → cs'.frozenHeight < cs.frozenHeight) := by
  refine ⟨?_, ?_, ?_⟩
  · intro hf hle
    simp only [CheckMisbehaviourAndUpdateState, if_pos (And.intro hf hle)]
  · intro hf hlt a b
    have hguard : ¬ (cs.IsFrozen = true ∧ cs.frozenHeight ≤ mis.GetHeight) := by
      rintro ⟨_, hle⟩
      exact absurd hlt (not_lt.mpr hle)
    simp only [CheckMisbehaviourAndUpdateState, if_neg hguard]
    cases cons with
    | other => simp
    | tendermint tmCons =>
      cases mis with
      | other h => simp
      | tendermint ev =>
        dsimp only
        cases hc : checkMisbehaviour env cs tmCons ev height now with
        | error e => simp
        | ok u => simp
  · intro cs' hok hf
    by_cases hguard : (cs.IsFrozen = true ∧ cs.frozenHeight ≤ mis.GetHeight)
    · rw [show CheckMisbehaviourAndUpdateState env (.tendermint cs) cons mis height now
          = .error (.invalidEvidence (.alreadyFrozen cs.frozenHeight mis.GetHeight)) from by
        simp only [CheckMisbehaviourAndUpdateState, if_pos hguard]] at hok
      exact absurd hok (by simp)
    · simp only [CheckMisbehaviourAndUpdateState, if_neg hguard] at hok
      cases cons with
      | other => exact absurd hok (by simp)
      | tendermint tmCons =>
        cases mis with
        | other h => exact absurd hok (by simp)
        | tendermint ev =>
          dsimp only at hok
          cases hc : checkMisbehaviour env cs tmCons ev height now with
          | error e => rw [hc] at hok; exact absurd hok (by simp)
          | ok u =>
            rw [hc] at hok
            have hcs : { cs with frozenHeight := ev.height } = cs' := by
              simpa using hok
            have hlt : ev.height < cs.frozenHeight := by
              rcases not_and_or.mp hguard with h1 | h2
              · exact absurd hf h1
              · exact not_le.mp (by simpa [AnyMisbehaviour.GetHeight] using h2)
            rw [← hcs]
            simpa using hlt

/-- Witness for C2 at a concrete input: a client frozen at height 5 and
evidence at height 7. -/
theorem c2_frozen_client_refreeze_guard_witness :
    ((⟨5, 100, ⟨1, 3⟩⟩ : TmClientState).IsFrozen = true) ∧
    CheckMisbehaviourAndUpdateState
      ⟨fun _ => some ⟨7⟩, fun n => some ⟨n, 1, 2⟩, fun _ _ _ _ _ _ => true⟩
      (.tendermint ⟨5, 100, ⟨1, 3⟩⟩)
      (.tendermint ⟨4, 9⟩)
      (.tendermint ⟨"testchain", ⟨11⟩, ⟨12⟩, 7⟩)
      3 10
    = .error (.invalidEvidence (.alreadyFrozen 5 7)) :=
  ⟨by decide,
    (c2_frozen_client_refreeze_guard _ _ _ _ _ _).1 (by decide) (by decide)⟩

/-- C3 counterexample: a call whose unbonding period has expired
(`now − trustedTimestamp = 100 − 0 ≥ 10 = P`) on a client already frozen at
height 5 with evidence at height 7 returns the already-frozen
`ErrInvalidEvidence` error, not `UnbondingPeriodExpired` — so expiry alone
does not determine the reported error. -/
theorem c3_expired_call_not_always_unbonding_error :
    ((100 : Int) - 0 ≥ 10) ∧
    CheckMisbehaviourAndUpdateState
      ⟨fun _ => some ⟨7⟩, fun n => some ⟨n, 1, 2⟩, fun _ _ _ _ _ _ => true⟩
      (.tendermint ⟨5, 10, ⟨1, 3⟩⟩)
      (.tendermint ⟨0, 9⟩)
      (.tendermint ⟨"testchain", ⟨11⟩, ⟨12⟩, 7⟩)
      3 100
    = .error (.invalidEvidence (.alreadyFrozen 5 7)) ∧
    CheckMisbehaviourAndUpdateState
      ⟨fun _ => some ⟨7⟩, fun n => some ⟨n, 1, 2⟩, fun _ _ _ _ _ _ => true⟩
      (.tendermint ⟨5, 10, ⟨1, 3⟩⟩)
      (.tendermint ⟨0, 9⟩)
      (.tendermint ⟨"testchain", ⟨11⟩, ⟨12⟩, 7⟩)
      3 100
    ≠ .error (.invalidEvidence (.wrapped .unbondingPeriodExpired)) := by
  refine ⟨by decide, rfl, ?_⟩
  intro h
  rw [show CheckMisbehaviourAndUpdateState
      ⟨fun _ => some ⟨7⟩, fun n => some ⟨n, 1, 2⟩, fun _ _ _ _ _ _ => true⟩
      (.tendermint ⟨5, 10, ⟨1, 3⟩⟩) (.tendermint ⟨0, 9⟩)
      (.tendermint ⟨"testchain", ⟨11⟩, ⟨12⟩, 7⟩) 3 100
    = .error (.invalidEvidence (.alreadyFrozen 5 7)) from rfl] at h
  simp at h

/-- C3 amended: for Tendermint-typed inputs, when
`currentTimestamp − trustedTimestamp ≥ unbondingPeriod` the call never
succeeds; and if additionally the already-frozen guard does not fire and the
reference height is at or before the evidence height, it fails specifically
with `UnbondingPeriodExpired` (wrapped in `ErrInvalidEvidence`), regardless
of header validity. -/
theorem c3_unbonding_period_expired_rejection
    (env : VerifyEnv) (cs : TmClientState) (cons : TmConsensusState)
    (ev : TmEvidence) (height : Nat) (now : Int)
    (hexp : now - cons.timestamp ≥ cs.unbondingPeriod) :
    (∀ cs', CheckMisbehaviourAndUpdateState env (.tendermint cs) (.tendermint cons)
      (.tendermint ev) height now ≠ .ok cs')
    ∧ (¬ (cs.IsFrozen = true ∧ cs.frozenHeight ≤ ev.height) → height ≤ ev.height →
      CheckMisbehaviourAndUpdateState env (.tendermint cs) (.tendermint cons)
        (.tendermint ev) height now
        = .error (.invalidEvidence (.wrapped .unbondingPeriodExpired))) := by
  have hcheck : ∀ h : ¬ (ev.height < height),
      checkMisbehaviour env cs cons ev height now = .error .unbondingPeriodExpired := by
    intro h
    simp only [checkMisbehaviour, gt_iff_lt, if_neg h, if_pos hexp]
  constructor
  · intro cs' hok
    by_cases hguard : (cs.IsFrozen = true ∧
        cs.frozenHeight ≤ (AnyMisbehaviour.tendermint ev).GetHeight)
    · rw [show CheckMisbehaviourAndUpdateState env (.tendermint cs) (.tendermint cons)
          (.tendermint ev) height now
          = .error (.invalidEvidence (.alreadyFrozen cs.frozenHeight
            (AnyMisbehaviour.tendermint ev).GetHeight)) from by
        simp only [CheckMisbehaviourAndUpdateState, if_pos hguard]] at hok
      exact absurd hok (by simp)
    · simp only [CheckMisbehaviourAndUpdateState, if_neg hguard] at hok
      by_cases hh : ev.height < height
      · rw [show checkMisbehaviour env cs cons ev height now = .error .invalidHeight from by
          simp only [checkMisbehaviour, gt_iff_lt, if_pos hh]] at hok
        exact absurd hok (by simp)
      · rw [hcheck hh] at hok
        exact absurd hok (by simp)
  · intro hguard hheight
    have hguard' : ¬ (cs.IsFrozen = true ∧
        cs.frozenHeight ≤ (AnyMisbehaviour.tendermint ev).GetHeight) := by
      simpa [AnyMisbehaviour.GetHeight] using hguard
    simp only [CheckMisbehaviourAndUpdateState, if_neg hguard']
    rw [hcheck (not_lt.mpr hheight)]

/-- Witness for C3 amended at a concrete input. -/
theorem c3_unbonding_period_expired_rejection_witness :
    ((100 : Int) - 0 ≥ 10) ∧
    CheckMisbehaviourAndUpdateState
      ⟨fun _ => some ⟨7⟩, fun n => some ⟨n, 1, 2⟩, fun _ _ _ _ _ _ => true⟩
      (.tendermint ⟨0, 10, ⟨1, 3⟩⟩)
      (.tendermint ⟨0, 9⟩)
      (.tendermint ⟨"testchain", ⟨11⟩, ⟨12⟩, 7⟩)
      3 100
    = .error (.invalidEvidence (.wrapped .unbondingPeriodExpired)) :=
  ⟨by decide,
    (c3_unbonding_period_expired_rejection _ _ _ _ _ _ (by decide)).2
      (by decide) (by decide)⟩

/-- C4 counterexample: with a Tendermint client state frozen at height 5 and
evidence height 7, a non-Tendermint consensus state is NOT rejected with a
type-mismatch error before the already-frozen check: the call returns the
already-frozen `ErrInvalidEvidence` error, so the consensus-state and
evidence type checks do not run before step 1. -/
theorem c4_type_checks_not_all_before_frozen_check :
    CheckMisbehaviourAndUpdateState
      ⟨fun _ => some ⟨7⟩, fun n => some ⟨n, 1, 2⟩, fun _ _ _ _ _ _ => true⟩
      (.tendermint ⟨5, 100, ⟨1, 3⟩⟩)
      .other
      (.other 7)
      3 10
    = .error (.invalidEvidence (.alreadyFrozen 5 7)) ∧
    ∀ s, CheckMisbehaviourAndUpdateState
      ⟨fun _ => some ⟨7⟩, fun n => some ⟨n, 1, 2⟩, fun _ _ _ _ _ _ => true⟩
      (.tendermint ⟨5, 100, ⟨1, 3⟩⟩)
      .other
      (.other 7)
      3 10
    ≠ .error (.invalidClientType s) := by
  refine ⟨rfl, ?_⟩
  intro s h
  rw [show CheckMisbehaviourAndUpdateState
      ⟨fun _ => some ⟨7⟩, fun n => some ⟨n, 1, 2⟩, fun _ _ _ _ _ _ => true⟩
      (.tendermint ⟨5, 100, ⟨1, 3⟩⟩) .other (.other 7) 3 10
    = .error (.invalidEvidence (.alreadyFrozen 5 7)) from rfl] at h
  exact ClientErr.noConfusion (Except.error.inj h)

/-- C4 amended: a client-state kind mismatch is rejected with
`ErrInvalidClientType` before any other check (in particular regardless of
the frozen status); consensus-state and evidence kind mismatches are also
rejected with `ErrInvalidClientType` — an error kind distinct from every
evidence-invalidity error — but only after the already-frozen check of
step 1 has passed. -/
theorem c4_type_mismatch_rejection_order
    (env : VerifyEnv) (cons : AnyConsensusState) (mis : AnyMisbehaviour)
    (height : Nat) (now : Int) :
    (CheckMisbehaviourAndUpdateState env .other cons mis height now
      = .error (.invalidClientType "client state type is not Tendermint"))
    ∧ (∀ cs : TmClientState,
      ¬ (cs.IsFrozen = true ∧ cs.frozenHeight ≤ mis.GetHeight) →
      cons = .other →
      CheckMisbehaviourAndUpdateState env (.tendermint cs) cons mis height now
        = .error (.invalidClientType "consensus state is not Tendermint"))
    ∧ (∀ (cs : TmClientState) (h : Nat),
      ¬ (cs.IsFrozen = true ∧ cs.frozenHeight ≤ mis.GetHeight) →
      (∃ tmCons, cons = .tendermint tmCons) →
      mis = .other h →
      CheckMisbehaviourAndUpdateState env (.tendermint cs) cons mis height now
        = .error (.invalidClientType "evidence type is not Tendermint"))
    ∧ (∀ s m, ClientErr.invalidClientType s ≠ ClientErr.invalidEvidence m) := by
  refine ⟨rfl, ?_, ?_, ?_⟩
  · intro cs hguard hcons
    subst hcons
    simp only [CheckMisbehaviourAndUpdateState, if_neg hguard]
  · rintro cs h hguard ⟨tmCons, hcons⟩ hmis
    subst hcons
    subst hmis
    simp only [CheckMisbehaviourAndUpdateState, if_neg hguard]
  · intro s m h
    exact ClientErr.noConfusion h

/-- Witness for C4 amended at a concrete input: a frozen client with a
non-Tendermint consensus state whose evidence height is below the frozen
height. -/
theorem c4_type_mismatch_rejection_order_witness :
    ¬ ((⟨5, 100, ⟨1, 3⟩⟩ : TmClientState).IsFrozen = true ∧ 5 ≤ 3) ∧
    CheckMisbehaviourAndUpdateState
      ⟨fun _ => some ⟨7⟩, fun n => some ⟨n, 1, 2⟩, fun _ _ _ _ _ _ => true⟩
      (.tendermint ⟨5, 100, ⟨1, 3⟩⟩)
      .other
      (.other 3)
      3 10
    = .error (.invalidClientType "consensus state is not Tendermint") :=
  ⟨by decide,
    (c4_type_mismatch_rejection_order _ _ _ _ _).2.1 ⟨5, 100, ⟨1, 3⟩⟩
      (by decide) rfl⟩

/-! ### Properties of the lexicographic byte-string comparison -/

theorem cmpBytes_self : ∀ a : Bytes, cmpBytes a a = .eq
  | [] => rfl
  | a :: as => by simp [cmpBytes, cmpBytes_self as]

theorem eq_of_cmpBytes_eq : ∀ (a b : Bytes), cmpBytes a b = .eq → a = b := by
  intro a
  induction a with
  | nil =>
    intro b h
    cases b with
    | nil => rfl
    | cons y ys => simp [cmpBytes] at h
  | cons x xs ih =>
    intro b h
    cases b with
    | nil => simp [cmpBytes] at h
    | cons y ys =>
      simp only [cmpBytes] at h
      by_cases h1 : x < y
      · rw [if_pos h1] at h; simp at h
      · rw [if_neg h1] at h
        by_cases h2 : y < x
        · rw [if_pos h2] at h; simp at h
        · rw [if_neg h2] at h
          have hxy : x = y := Nat.le_antisymm (Nat.not_lt.mp h2) (Nat.not_lt.mp h1)
          rw [hxy]
          exact congrArg (List.cons y) (ih ys h)

theorem cmpBytes_swap : ∀ a b : Bytes, (cmpBytes a b).swap = cmpBytes b a := by
  intro a
  induction a with
  | nil => intro b; cases b <;> rfl
  | cons x xs ih =>
    intro b
    cases b with
    | nil => rfl
    | cons y ys =>
      simp only [cmpBytes]
      by_cases h1 : x < y
      · rw [if_pos h1, if_neg (Nat.lt_asymm h1), if_pos h1]; rfl
      · by_cases h2 : y < x
        · rw [if_neg h1, if_pos h2, if_pos h2]; rfl
        · rw [if_neg h1, if_neg h2, if_neg h2, if_neg h1]; exact ih ys

theorem cmpBytes_lt_trans :
    ∀ a b c : Bytes, cmpBytes a b = .lt → cmpBytes b c = .lt → cmpBytes a c = .lt := by
  intro a
  induction a with
  | nil =>
    intro b c hab hbc
    cases b with
    | nil => simp [cmpBytes] at hab
    | cons y ys =>
      cases c with
      | nil => simp [cmpBytes] at hbc
      | cons z zs => rfl
  | cons x xs ih =>
    intro b c hab hbc
    cases b with
    | nil => simp [cmpBytes] at hab
    | cons y ys =>
      cases c with
      | nil => simp [cmpBytes] at hbc
      | cons z zs =>
        simp only [cmpBytes] at hab hbc ⊢
        by_cases h1 : x < y
        · by_cases h2 : y < z
          · rw [if_pos (Nat.lt_trans h1 h2)]
          · by_cases h3 : z < y
            · rw [if_neg h2, if_pos h3] at hbc; simp at hbc
            · have hyz : y = z := Nat.le_antisymm (Nat.not_lt.mp h3) (Nat.not_lt.mp h2)
              rw [if_pos (hyz ▸ h1)]
        · rw [if_neg h1] at hab
          by_cases h2 : y < x
          · rw [if_pos h2] at hab; simp at hab
          · rw [if_neg h2] at hab
            have hxy : x = y := Nat.le_antisymm (Nat.not_lt.mp h2) (Nat.not_lt.mp h1)
            subst hxy
            by_cases h3 : x < z
            · rw [if_pos h3]
            · rw [if_neg h3] at hbc ⊢
              by_cases h4 : z < x
              · rw [if_pos h4] at hbc; simp at hbc
              · rw [if_neg h4] at hbc ⊢; exact ih ys zs hab hbc

theorem bytesLt_asymm {a b : Bytes} (h : bytesLt a b) : ¬ bytesLt b a := by
  intro h'
  unfold bytesLt at h h'
  rw [← cmpBytes_swap a b, h] at h'
  exact Ordering.noConfusion h'

theorem bytesLt_of_cmpBytes_gt {a b : Bytes} (h : cmpBytes a b = .gt) : bytesLt b a := by
  unfold bytesLt
  rw [← cmpBytes_swap a b, h]
  rfl

theorem bytesLe_of_lt {a b : Bytes} (h : bytesLt a b) : bytesLe a b := by
  unfold bytesLe
  rw [h]
  exact Ordering.noConfusion

theorem bytesLe_refl (a : Bytes) : bytesLe a a := by
  unfold bytesLe
  rw [cmpBytes_self]
  exact Ordering.noConfusion

theorem bytesLt_or_eq_of_le {a b : Bytes} (h : bytesLe a b) : bytesLt a b ∨ a = b := by
  unfold bytesLe at h
  unfold bytesLt
  cases hc : cmpBytes a b with
  | lt => exact Or.inl rfl
  | eq => exact Or.inr (eq_of_cmpBytes_eq a b hc)
  | gt => exact absurd hc h

theorem bytesLe_trans {a b c : Bytes} (hab : bytesLe a b) (hbc : bytesLe b c) :
    bytesLe a c := by
  rcases bytesLt_or_eq_of_le hab with h1 | h1
  · rcases bytesLt_or_eq_of_le hbc with h2 | h2
    · exact bytesLe_of_lt (cmpBytes_lt_trans a b c h1 h2)
    · exact h2 ▸ bytesLe_of_lt h1
  · exact h1 ▸ hbc

theorem bytesLe_antisymm {a b : Bytes} (hab : bytesLe a b) (hba : bytesLe b a) :
    a = b := by
  rcases bytesLt_or_eq_of_le hab with h1 | h1
  · rcases bytesLt_or_eq_of_le hba with h2 | h2
    · exact absurd h2 (bytesLt_asymm h1)
    · exact h2.symm
  · exact h1

theorem bytesLe_total (a b : Bytes) : bytesLe a b ∨ bytesLe b a := by
  cases hc : cmpBytes a b with
  | lt => exact Or.inl (bytesLe_of_lt hc)
  | eq => exact Or.inl (eq_of_cmpBytes_eq a b hc ▸ bytesLe_refl a)
  | gt => exact Or.inr (bytesLe_of_lt (bytesLt_of_cmpBytes_gt hc))

/-! ### The pair order is total, transitive and antisymmetric -/

instance : IsTotal KvPair kvPairLe where
  total p q := by
    unfold kvPairLe
    cases hc : cmpBytes p.key q.key with
    | lt => exact Or.inl (Or.inl hc)
    | gt => exact Or.inr (Or.inl (bytesLt_of_cmpBytes_gt hc))
    | eq =>
      have hk : p.key = q.key := eq_of_cmpBytes_eq _ _ hc
      rcases bytesLe_total p.value q.value with hv | hv
      · exact Or.inl (Or.inr ⟨hk, hv⟩)
      · exact Or.inr (Or.inr ⟨hk.symm, hv⟩)

instance : IsTrans KvPair kvPairLe where
  trans p q r hpq hqr := by
    unfold kvPairLe at hpq hqr ⊢
    rcases hpq with h1 | ⟨hk1, hv1⟩
    · rcases hqr with h2 | ⟨hk2, _⟩
      · exact Or.inl (cmpBytes_lt_trans _ _ _ h1 h2)
      · exact Or.inl (hk2 ▸ h1)
    · rcases hqr with h2 | ⟨hk2, hv2⟩
      · exact Or.inl (hk1 ▸ h2)
      · exact Or.inr ⟨hk1.trans hk2, bytesLe_trans hv1 hv2⟩

instance : IsAntisymm KvPair kvPairLe where
  antisymm p q hpq hqp := by
    unfold kvPairLe at hpq hqp
    rcases hpq with h1 | ⟨hk1, hv1⟩
    · rcases hqp with h2 | ⟨hk2, _⟩
      · exact absurd h2 (bytesLt_asymm h1)
      · rw [hk2] at h1
        unfold bytesLt at h1
        rw [cmpBytes_self] at h1
        exact Ordering.noConfusion h1
    · rcases hqp with h2 | ⟨_, hv2⟩
      · rw [hk1] at h2
        unfold bytesLt at h2
        rw [cmpBytes_self] at h2
        exact Ordering.noConfusion h2
      · cases p
        cases q
        simp only [KvPair.mk.injEq]
        exact ⟨hk1, bytesLe_antisymm hv1 hv2⟩

/-! ### Builder state after a sequence of insertions -/

theorem simpleMap_foldl_kvs (env : HashEnv) :
    ∀ (ops : List (Bytes × Bytes)) (m : simpleMap),
      (ops.foldl (fun m kv => m.Set env kv.1 kv.2) m).kvs
        = m.kvs ++ ops.map (setPair env)
  | [], m => by simp
  | op :: ops, m => by
    rw [List.foldl_cons, simpleMap_foldl_kvs env ops]
    simp [simpleMap.Set, setPair]

theorem simpleMap_foldl_unsorted (env : HashEnv) :
    ∀ (ops : List (Bytes × Bytes)) (m : simpleMap), m.sorted = false →
      (ops.foldl (fun m kv => m.Set env kv.1 kv.2) m).sorted = false
  | [], _, h => h
  | _ :: ops, _, _ => simpleMap_foldl_unsorted env ops _ rfl

theorem buildSimpleMap_Hash (env : HashEnv) (ops : List (Bytes × Bytes)) :
    (buildSimpleMap env ops).Hash env
      = hashKVPairs env (sortPairs (ops.map (setPair env))) := by
  have hs : (buildSimpleMap env ops).sorted = false :=
    simpleMap_foldl_unsorted env ops newSimpleMap rfl
  have hk : (buildSimpleMap env ops).kvs = ops.map (setPair env) := by
    simpa [newSimpleMap] using simpleMap_foldl_kvs env ops newSimpleMap
  rw [simpleMap.Hash, simpleMap.Sort, if_neg (by rw [hs]; exact Bool.false_ne_true), hk]

theorem merkleMap_foldl_kvs (env : HashEnv) :
    ∀ (ops : List (Bytes × Bytes)) (m : merkleMap),
      (ops.foldl (fun m kv => m.set env kv.1 kv.2) m).kvs
        = m.kvs ++ ops.map (setPair env)
  | [], m => by simp
  | op :: ops, m => by
    rw [List.foldl_cons, merkleMap_foldl_kvs env ops]
    simp [merkleMap.set, setPair]

theorem merkleMap_foldl_unsorted (env : HashEnv) :
    ∀ (ops : List (Bytes × Bytes)) (m : merkleMap), m.sorted = false →
      (ops.foldl (fun m kv => m.set env kv.1 kv.2) m).sorted = false
  | [], _, h => h
  | _ :: ops, _, _ => merkleMap_foldl_unsorted env ops _ rfl

theorem buildMerkleMap_hash (env : HashEnv) (ops : List (Bytes × Bytes)) :
    (buildMerkleMap env ops).hash env
      = hashKVPairs env (sortPairs (ops.map (setPair env))) := by
  have hs : (buildMerkleMap env ops).sorted = false :=
    merkleMap_foldl_unsorted env ops newMerkleMap rfl
  have hk : (buildMerkleMap env ops).kvs = ops.map (setPair env) := by
    simpa [newMerkleMap] using merkleMap_foldl_kvs env ops newMerkleMap
  rw [merkleMap.hash, merkleMap.sort, if_neg (by rw [hs]; exact Bool.false_ne_true), hk]

/-- C5: inserting the same unique-key (key, value) pairs into two fresh
`simpleMap`s in any two orders and calling `Hash()` yields byte-identical
roots, for every value-hash and Merkle-combine function. -/
theorem c5_hash_order_independent (env : HashEnv)
    (ops1 ops2 : List (Bytes × Bytes))
    (hperm : ops1.Perm ops2)
    (_hnodup : (ops1.map Prod.fst).Nodup) :
    (buildSimpleMap env ops1).Hash env = (buildSimpleMap env ops2).Hash env := by
  rw [buildSimpleMap_Hash, buildSimpleMap_Hash]
  have hp : (sortPairs (ops1.map (setPair env))).Perm
      (sortPairs (ops2.map (setPair env))) :=
    (List.perm_insertionSort kvPairLe _).trans
      ((hperm.map (setPair env)).trans (List.perm_insertionSort kvPairLe _).symm)
  rw [List.eq_of_perm_of_sorted hp
    (List.sorted_insertionSort kvPairLe _) (List.sorted_insertionSort kvPairLe _)]

/-- Witness for C5: the spec's literal scenario — keys "b","a","c" (bytes
98, 97, 99) with values "2","1","3" (bytes 50, 49, 51) inserted in the two
given orders (here with the identity as the stand-in value hash and
concatenation as the stand-in Merkle combine). -/
theorem c5_hash_order_independent_witness :
    ([([98], [50]), ([97], [49]), ([99], [51])] : List (Bytes × Bytes)).Perm
        [([97], [49]), ([99], [51]), ([98], [50])] ∧
    (buildSimpleMap ⟨fun v => v, fun l => l.foldl (· ++ ·) []⟩
        [([98], [50]), ([97], [49]), ([99], [51])]).Hash
        ⟨fun v => v, fun l => l.foldl (· ++ ·) []⟩
      = (buildSimpleMap ⟨fun v => v, fun l => l.foldl (· ++ ·) []⟩
        [([97], [49]), ([99], [51]), ([98], [50])]).Hash
        ⟨fun v => v, fun l => l.foldl (· ++ ·) []⟩ :=
  ⟨by decide,
    c5_hash_order_independent _ _ _ (by decide) (by decide)⟩

/-- C6: `Hash()` of a freshly built `simpleMap` equals the Merkle combine
of the leaf list obtained by sorting the (key, hash-of-value-at-Set-time)
pairs and encoding each as
`varint(len(key)) || key || varint(len(hashedValue)) || hashedValue`;
moreover that sorted list is ordered lexicographically by raw key bytes and
is a permutation of the inserted pairs. -/
theorem c6_hash_sorts_then_merkles_varint_leaves (env : HashEnv)
    (ops : List (Bytes × Bytes)) :
    ((buildSimpleMap env ops).Hash env
      = env.simpleHashFromByteSlices
        ((sortPairs (ops.map (setPair env))).map (fun p => specLeaf p.key p.value)))
    ∧ List.Sorted (fun p q : KvPair => bytesLe p.key q.key)
        (sortPairs (ops.map (setPair env)))
    ∧ (sortPairs (ops.map (setPair env))).Perm (ops.map (setPair env)) := by
  refine ⟨?_, ?_, ?_⟩
  · rw [buildSimpleMap_Hash]
    unfold hashKVPairs
    have hleaf : kvPairBytes = fun p : KvPair => specLeaf p.key p.value := by
      funext p
      simp [kvPairBytes, encodeByteSlice, specLeaf]
    rw [hleaf]
  · have hs := List.sorted_insertionSort kvPairLe (ops.map (setPair env))
    refine List.Pairwise.imp ?_ hs
    intro p q hpq
    rcases hpq with hlt | ⟨heq, _⟩
    · exact bytesLe_of_lt hlt
    · exact heq ▸ bytesLe_refl p.key
  · exact List.perm_insertionSort kvPairLe _

/-- C10: for every insertion sequence, the `merkleMap` (`set`/`hash`) and
`simpleMap` (`Set`/`Hash`) builders produce byte-identical roots. -/
theorem c10_merkleMap_simpleMap_same_root (env : HashEnv)
    (ops : List (Bytes × Bytes)) :
    (buildMerkleMap env ops).hash env = (buildSimpleMap env ops).Hash env := by
  rw [buildMerkleMap_hash, buildSimpleMap_Hash]

/-- C7: `ValidateBasic` fails with `InvalidProof` exactly when the wrapped
signature byte string is empty and succeeds for any non-empty payload,
while `VerifyMembership` and `VerifyNonMembership` succeed unconditionally
for every root, path and expected value. -/
theorem c7_signature_proof_contract (p : SignatureProof) :
    (p.signature = [] → p.ValidateBasic = .error .invalidProof)
    ∧ (p.signature ≠ [] → p.ValidateBasic = .ok ())
    ∧ (∀ (root : CommitmentRoot) (path : CommitmentPath) (value : Bytes),
        p.VerifyMembership root path value = .ok ())
    ∧ (∀ (root : CommitmentRoot) (path : CommitmentPath),
        p.VerifyNonMembership root path = .ok ()) := by
  refine ⟨?_, ?_, fun _ _ _ => rfl, fun _ _ => rfl⟩
  · intro h
    simp [SignatureProof.ValidateBasic, SignatureProof.IsEmpty, h]
  · intro h
    simp [SignatureProof.ValidateBasic, SignatureProof.IsEmpty, h]

/-- Witness for C7: the empty and a one-byte signature. -/
theorem c7_signature_proof_contract_witness :
    ((⟨[]⟩ : SignatureProof).ValidateBasic = .error .invalidProof)
    ∧ ((⟨[1]⟩ : SignatureProof).ValidateBasic = .ok ())
    ∧ ((⟨[]⟩ : SignatureProof).VerifyMembership ⟨0⟩ ⟨0⟩ [2] = .ok ())
    ∧ ((⟨[]⟩ : SignatureProof).VerifyNonMembership ⟨0⟩ ⟨0⟩ = .ok ()) :=
  ⟨(c7_signature_proof_contract ⟨[]⟩).1 rfl,
    (c7_signature_proof_contract ⟨[1]⟩).2.1 (by simp),
    (c7_signature_proof_contract ⟨[]⟩).2.2.1 ⟨0⟩ ⟨0⟩ [2],
    (c7_signature_proof_contract ⟨[]⟩).2.2.2 ⟨0⟩ ⟨0⟩⟩

/-- C8 counterexample: `HandleMsgConnectionOpenTry` on an envelope whose
cached value is not a concrete `Proof` panics (Go unchecked type
assertion); it does not return an error, so the handler does crash on an
envelope that does not decode to a concrete `Proof`. -/
theorem c8_handler_panics_on_bad_envelope :
    HandleMsgConnectionOpenTry
      ⟨fun _ _ _ => .ok (), fun _ _ _ _ _ _ _ _ => .ok (),
        fun _ _ _ _ _ _ => .ok (), fun _ _ _ => .ok ()⟩
      ⟨"conn", ⟨"clientB", "connB"⟩, "clientA", ["1.0"],
        ⟨.otherValue⟩, ⟨.proofValue (.signature ⟨[1]⟩)⟩, 1, 1⟩
      = .panicked
    ∧ (∀ e, HandlerOutcome.panicked ≠ HandlerOutcome.failure e)
    ∧ (∀ evs, HandlerOutcome.panicked ≠ HandlerOutcome.success evs) :=
  ⟨rfl, fun _ h => HandlerOutcome.noConfusion h,
    fun _ h => HandlerOutcome.noConfusion h⟩

/-- C8 amended: in each proof-carrying handler (Try, Ack, Confirm) the
unchecked cast of every envelope's cached value happens before the keeper
call: if every envelope holds a concrete `Proof` the handler never panics,
and if any envelope does not, the handler panics — returning no
`InvalidProof` error — and the keeper is never consulted (the outcome is
the same for every keeper). -/
theorem c8_extraction_precedes_keeper (k k' : Keeper) :
    (∀ msg : MsgConnectionOpenTry,
      ((∃ p, msg.proofInit.cached = .proofValue p) →
        (∃ p, msg.proofConsensus.cached = .proofValue p) →
        HandleMsgConnectionOpenTry k msg ≠ .panicked)
      ∧ (msg.proofInit.cached = .otherValue ∨ msg.proofConsensus.cached = .otherValue →
        HandleMsgConnectionOpenTry k msg = .panicked ∧
        HandleMsgConnectionOpenTry k msg = HandleMsgConnectionOpenTry k' msg))
    ∧ (∀ msg : MsgConnectionOpenAck,
      ((∃ p, msg.proofTry.cached = .proofValue p) →
        (∃ p, msg.proofConsensus.cached = .proofValue p) →
        HandleMsgConnectionOpenAck k msg ≠ .panicked)
      ∧ (msg.proofTry.cached = .otherValue ∨ msg.proofConsensus.cached = .otherValue →
        HandleMsgConnectionOpenAck k msg = .panicked ∧
        HandleMsgConnectionOpenAck k msg = HandleMsgConnectionOpenAck k' msg))
    ∧ (∀ msg : MsgConnectionOpenConfirm,
      ((∃ p, msg.proofAck.cached = .proofValue p) →
        HandleMsgConnectionOpenConfirm k msg ≠ .panicked)
      ∧ (msg.proofAck.cached = .otherValue →
        HandleMsgConnectionOpenConfirm k msg = .panicked ∧
        HandleMsgConnectionOpenConfirm k msg = HandleMsgConnectionOpenConfirm k' msg)) := by
  refine ⟨?_, ?_, ?_⟩
  · intro msg
    constructor
    · rintro ⟨p1, h1⟩ ⟨p2, h2⟩
      simp only [HandleMsgConnectionOpenTry, h1, h2, assertToProof]
      cases k.ConnOpenTry msg.connectionID msg.counterparty msg.clientID
          msg.counterpartyVersions p1 p2 msg.proofHeight msg.consensusHeight with
      | error e => simp
      | ok u => simp
    · rintro (h | h)
      · simp [HandleMsgConnectionOpenTry, h, assertToProof]
      · cases hpi : msg.proofInit.cached with
        | otherValue => simp [HandleMsgConnectionOpenTry, hpi, assertToProof]
        | proofValue p => simp [HandleMsgConnectionOpenTry, hpi, h, assertToProof]
  · intro msg
    constructor
    · rintro ⟨p1, h1⟩ ⟨p2, h2⟩
      simp only [HandleMsgConnectionOpenAck, h1, h2, assertToProof]
      cases k.ConnOpenAck msg.connectionID msg.version p1 p2
          msg.proofHeight msg.consensusHeight with
      | error e => simp
      | ok u => simp
    · rintro (h | h)
      · simp [HandleMsgConnectionOpenAck, h, assertToProof]
      · cases hpt : msg.proofTry.cached with
        | otherValue => simp [HandleMsgConnectionOpenAck, hpt, assertToProof]
        | proofValue p => simp [HandleMsgConnectionOpenAck, hpt, h, assertToProof]
  · intro msg
    constructor
    · rintro ⟨p1, h1⟩
      simp only [HandleMsgConnectionOpenConfirm, h1, assertToProof]
      cases k.ConnOpenConfirm msg.connectionID p1 msg.proofHeight with
      | error e => simp
      | ok u => simp
    · intro h
      simp [HandleMsgConnectionOpenConfirm, h, assertToProof]

/-- Witness for C8 amended: with an undecodable `proofInit` envelope, the
Try handler panics and ignores the keeper (an always-ok and an always-fail
keeper give the same outcome). -/
theorem c8_extraction_precedes_keeper_witness :
    HandleMsgConnectionOpenTry
      ⟨fun _ _ _ => .ok (), fun _ _ _ _ _ _ _ _ => .ok (),
        fun _ _ _ _ _ _ => .ok (), fun _ _ _ => .ok ()⟩
      ⟨"conn", ⟨"clientB", "connB"⟩, "clientA", ["1.0"],
        ⟨.otherValue⟩, ⟨.proofValue (.signature ⟨[1]⟩)⟩, 1, 1⟩
      = .panicked
    ∧ HandleMsgConnectionOpenTry
      ⟨fun _ _ _ => .ok (), fun _ _ _ _ _ _ _ _ => .ok (),
        fun _ _ _ _ _ _ => .ok (), fun _ _ _ => .ok ()⟩
      ⟨"conn", ⟨"clientB", "connB"⟩, "clientA", ["1.0"],
        ⟨.otherValue⟩, ⟨.proofValue (.signature ⟨[1]⟩)⟩, 1, 1⟩
      = HandleMsgConnectionOpenTry
      ⟨fun _ _ _ => .error 3, fun _ _ _ _ _ _ _ _ => .error 3,
        fun _ _ _ _ _ _ => .error 3, fun _ _ _ => .error 3⟩
      ⟨"conn", ⟨"clientB", "connB"⟩, "clientA", ["1.0"],
        ⟨.otherValue⟩, ⟨.proofValue (.signature ⟨[1]⟩)⟩, 1, 1⟩ :=
  ((c8_extraction_precedes_keeper
      ⟨fun _ _ _ => .ok (), fun _ _ _ _ _ _ _ _ => .ok (),
        fun _ _ _ _ _ _ => .ok (), fun _ _ _ => .ok ()⟩
      ⟨fun _ _ _ => .error 3, fun _ _ _ _ _ _ _ _ => .error 3,
        fun _ _ _ _ _ _ => .error 3, fun _ _ _ => .error 3⟩).1
    ⟨"conn", ⟨"clientB", "connB"⟩, "clientA", ["1.0"],
      ⟨.otherValue⟩, ⟨.proofValue (.signature ⟨[1]⟩)⟩, 1, 1⟩).2 (Or.inl rfl)

/-- C9 counterexample: a successful `HandleMsgConnectionOpenAck` emits a
step event whose attribute list is exactly
`[(connection_id, …)]` — it does not carry the client or counterparty
identifiers the claim requires. -/
theorem c9_ack_event_lacks_client_ids :
    HandleMsgConnectionOpenAck
      ⟨fun _ _ _ => .ok (), fun _ _ _ _ _ _ _ _ => .ok (),
        fun _ _ _ _ _ _ => .ok (), fun _ _ _ => .ok ()⟩
      ⟨"conn", "1.0", ⟨.proofValue (.signature ⟨[1]⟩)⟩,
        ⟨.proofValue (.signature ⟨[1]⟩)⟩, 1, 1⟩
      = .success [⟨EventTypeConnectionOpenAck, [(AttributeKeyConnectionID, "conn")]⟩,
        ⟨EventTypeMessage, [(AttributeKeyModule, AttributeValueCategory)]⟩]
    ∧ (∀ v, (AttributeKeyClientID, v) ∉ [(AttributeKeyConnectionID, "conn")])
    ∧ (∀ v, (AttributeKeyCounterpartyClientID, v) ∉ [(AttributeKeyConnectionID, "conn")]) := by
  refine ⟨rfl, ?_, ?_⟩
  · intro v h
    rw [List.mem_singleton] at h
    have hk : AttributeKeyClientID = AttributeKeyConnectionID := congrArg Prod.fst h
    exact absurd hk (by decide)
  · intro v h
    rw [List.mem_singleton] at h
    have hk : AttributeKeyCounterpartyClientID = AttributeKeyConnectionID :=
      congrArg Prod.fst h
    exact absurd hk (by decide)

/-- C9 amended: on a keeper error every handler returns that error and
emits nothing; on success every handler emits exactly one step event plus
the generic message marker — the Init and Try events carry the connection,
client and counterparty-client identifiers, while the Ack and Confirm
events carry only the connection identifier. -/
theorem c9_handler_event_emission (k : Keeper) :
    (∀ msg : MsgConnectionOpenInit,
      (∀ e, k.ConnOpenInit msg.connectionID msg.clientID msg.counterparty = .error e →
        HandleMsgConnectionOpenInit k msg = .failure e)
      ∧ (k.ConnOpenInit msg.connectionID msg.clientID msg.counterparty = .ok () →
        HandleMsgConnectionOpenInit k msg = .success
          [⟨EventTypeConnectionOpenInit, [(AttributeKeyConnectionID, msg.connectionID),
            (AttributeKeyClientID, msg.clientID),
            (AttributeKeyCounterpartyClientID, msg.counterparty.clientID)]⟩,
          ⟨EventTypeMessage, [(AttributeKeyModule, AttributeValueCategory)]⟩]))
    ∧ (∀ (msg : MsgConnectionOpenTry) (p1 p2 : Proof),
      msg.proofInit.cached = .proofValue p1 →
      msg.proofConsensus.cached = .proofValue p2 →
      (∀ e, k.ConnOpenTry msg.connectionID msg.counterparty msg.clientID
          msg.counterpartyVersions p1 p2 msg.proofHeight msg.consensusHeight = .error e →
        HandleMsgConnectionOpenTry k msg = .failure e)
      ∧ (k.ConnOpenTry msg.connectionID msg.counterparty msg.clientID
          msg.counterpartyVersions p1 p2 msg.proofHeight msg.consensusHeight = .ok () →
        HandleMsgConnectionOpenTry k msg = .success
          [⟨EventTypeConnectionOpenTry, [(AttributeKeyConnectionID, msg.connectionID),
            (AttributeKeyClientID, msg.clientID),
            (AttributeKeyCounterpartyClientID, msg.counterparty.clientID)]⟩,
          ⟨EventTypeMessage, [(AttributeKeyModule, AttributeValueCategory)]⟩]))
    ∧ (∀ (msg : MsgConnectionOpenAck) (p1 p2 : Proof),
      msg.proofTry.cached = .proofValue p1 →
      msg.proofConsensus.cached = .proofValue p2 →
      (∀ e, k.ConnOpenAck msg.connectionID msg.version p1 p2
          msg.proofHeight msg.consensusHeight = .error e →
        HandleMsgConnectionOpenAck k msg = .failure e)
      ∧ (k.ConnOpenAck msg.connectionID msg.version p1 p2
          msg.proofHeight msg.consensusHeight = .ok () →
        HandleMsgConnectionOpenAck k msg = .success
          [⟨EventTypeConnectionOpenAck, [(AttributeKeyConnectionID, msg.connectionID)]⟩,
          ⟨EventTypeMessage, [(AttributeKeyModule, AttributeValueCategory)]⟩]))
    ∧ (∀ (msg : MsgConnectionOpenConfirm) (p1 : Proof),
      msg.proofAck.cached = .proofValue p1 →
      (∀ e, k.ConnOpenConfirm msg.connectionID p1 msg.proofHeight = .error e →
        HandleMsgConnectionOpenConfirm k msg = .failure e)
      ∧ (k.ConnOpenConfirm msg.connectionID p1 msg.proofHeight = .ok () →
        HandleMsgConnectionOpenConfirm k msg = .success
          [⟨EventTypeConnectionOpenConfirm, [(AttributeKeyConnectionID, msg.connectionID)]⟩,
          ⟨EventTypeMessage, [(AttributeKeyModule, AttributeValueCategory)]⟩])) := by
  refine ⟨?_, ?_, ?_, ?_⟩
  · intro msg
    constructor
    · intro e h
      simp [HandleMsgConnectionOpenInit, h]
    · intro h
      simp [HandleMsgConnectionOpenInit, h]
  · intro msg p1 p2 h1 h2
    constructor
    · intro e h
      simp [HandleMsgConnectionOpenTry, h1, h2, assertToProof, h]
    · intro h
      simp [HandleMsgConnectionOpenTry, h1, h2, assertToProof, h]
  · intro msg p1 p2 h1 h2
    constructor
    · intro e h
      simp [HandleMsgConnectionOpenAck, h1, h2, assertToProof, h]
    · intro h
      simp [HandleMsgConnectionOpenAck, h1, h2, assertToProof, h]
  · intro msg p1 h1
    constructor
    · intro e h
      simp [HandleMsgConnectionOpenConfirm, h1, assertToProof, h]
    · intro h
      simp [HandleMsgConnectionOpenConfirm, h1, assertToProof, h]

/-- Witness for C9 amended: a successful Init call with an always-ok keeper
and a failing Confirm call with an always-failing keeper. -/
theorem c9_handler_event_emission_witness :
    HandleMsgConnectionOpenInit
      ⟨fun _ _ _ => .ok (), fun _ _ _ _ _ _ _ _ => .ok (),
        fun _ _ _ _ _ _ => .ok (), fun _ _ _ => .ok ()⟩
      ⟨"conn", "clientA", ⟨"clientB", "connB"⟩⟩
      = .success
        [⟨EventTypeConnectionOpenInit, [(AttributeKeyConnectionID, "conn"),
          (AttributeKeyClientID, "clientA"),
          (AttributeKeyCounterpartyClientID, "clientB")]⟩,
        ⟨EventTypeMessage, [(AttributeKeyModule, AttributeValueCategory)]⟩]
    ∧ HandleMsgConnectionOpenConfirm
      ⟨fun _ _ _ => .error 3, fun _ _ _ _ _ _ _ _ => .error 3,
        fun _ _ _ _ _ _ => .error 3, fun _ _ _ => .error 3⟩
      ⟨"conn", ⟨.proofValue (.signature ⟨[1]⟩)⟩, 1⟩
      = .failure 3 :=
  ⟨((c9_handler_event_emission
      ⟨fun _ _ _ => .ok (), fun _ _ _ _ _ _ _ _ => .ok (),
        fun _ _ _ _ _ _ => .ok (), fun _ _ _ => .ok ()⟩).1
    ⟨"conn", "clientA", ⟨"clientB", "connB"⟩⟩).2 rfl,
    ((c9_handler_event_emission
      ⟨fun _ _ _ => .error 3, fun _ _ _ _ _ _ _ _ => .error 3,
        fun _ _ _ _ _ _ => .error 3, fun _ _ _ => .error 3⟩).2.2.2
    ⟨"conn", ⟨.proofValue (.signature ⟨[1]⟩)⟩, 1⟩
    (.signature ⟨[1]⟩) rfl).1 3 rfl⟩
